import Mathlib

/-!
Verification development for the coder-mind master content platform.

The definitions below are a shallow embedding of the article lifecycle
(`api/articles/articles.js`), the comment thread store and stats job
(`api/articles/comments/comments.js`), and the per-user comment settings
store (`api/articles/comments/settings.js`).  Object ids are modelled as
naturals, the Mongo collections as Lean lists, and each Express middleware
as a pure function returning `Except Err` of the updated database.
JavaScript truthiness is modelled explicitly wherever the source relies on
it (`!article[stateTimestamp]`, `limit || currentSettings.limit`, ...).
-/

namespace CoderMind

/-- Object ids (Mongo ObjectId / SQL key), modelled as naturals. -/
abbrev OId := Nat

/-- Article lifecycle states, exactly the five states of the source schema. -/
inductive AState where
  | draft
  | published
  | inactivated
  | boosted
  | removed
deriving DecidableEq, Repr

/-- An authenticated platform user (`req.user.user`). `deletedAt` is the
soft-delete marker consulted by `verifyUser` and by the stats job. -/
structure AppUser where
  _id : OId
  tagAdmin : Bool
  tagAuthor : Bool
  name : String
  email : String
  deletedAt : Option Nat
deriving DecidableEq, Repr

/-- An article document.  `userId` is the owner reference used by the
lifecycle middlewares; `author` is the field the comment pipelines join on.
Per-state timestamps are `Option Nat` (a JS `Date` is always truthy, so
falsiness of `article[stateTimestamp]` is exactly `none`). -/
structure Article where
  _id : OId
  userId : OId
  author : OId
  title : String
  description : String
  content : String
  customUri : String
  themeId : Option OId
  categoryId : Option OId
  state : AState
  publishedAt : Option Nat
  boostedAt : Option Nat
  inactivatedAt : Option Nat
  removedAt : Option Nat
deriving DecidableEq, Repr

/-- Reference data: a theme. -/
structure Theme where
  _id : OId
  themeState : String
deriving DecidableEq, Repr

/-- Reference data: a category, belonging to one theme. -/
structure Category where
  _id : OId
  themeId : OId
  catState : String
deriving DecidableEq, Repr

/-- A simple calendar date mirroring a JS `Date` at day granularity:
`month` is 0-based as returned by `Date.prototype.getMonth`. -/
structure SDate where
  year : Int
  month : Nat
  day : Nat
deriving DecidableEq, Repr

/-- A comment document (root comment or answer). -/
structure Comment where
  _id : OId
  articleId : OId
  answerOf : Option OId
  userName : String
  userEmail : String
  message : String
  confirmedAt : Option Nat
  readedAt : Option Nat
  createdAt : SDate
deriving DecidableEq, Repr

/-- A row of the relational `comment_settings` table.  `notify` is stored
raw: the source writes either a boolean (stored 0/1) or, through the merge
quirk, the previous `limit` number, so the column is an `Int` here. -/
structure SettingsRow where
  userId : OId
  limit : Int
  notify : Int
  order : String
  type : String
  answers_order : String
  answers_type : String
deriving DecidableEq, Repr

/-- A row of the relational `comments` statistics table. -/
structure StatRecord where
  month : Nat
  year : Int
  count : Nat
  reference : Option OId
deriving DecidableEq, Repr

/-- The two data stores seen by the middlewares. -/
structure DB where
  articles : List Article
  comments : List Comment
  users : List AppUser
  themes : List Theme
  categories : List Category
  settingsRows : List SettingsRow
deriving DecidableEq, Repr

/-- Every distinct `throw` site of the embedded middlewares, plus
`typeError` for a raw JavaScript `TypeError` (property access on
`null`/`undefined`), which the response helpers collapse to a generic
internal error rather than a named one. -/
inductive Err where
  | titleRequired
  | titleTooLong
  | customUriRequired
  | forbidden
  | themeNotFound
  | categoryNeedsTheme
  | categoryNotFound
  | categoryThemeInactive
  | themeMismatch
  | articleNotFound
  | invalidState
  | useDeleteForRemove
  | noOpState
  | quotaExceeded
  | alreadyRemoved
  | articlesIdEmpty
  | multiBoostForbidden
  | invalidCommentId
  | alreadyRead
  | answerTooLong
  | commentRootNotFound
  | answersTypeInvalid
  | typeInvalid
  | answersOrderInvalid
  | orderInvalid
  | userNotFound
  | accessDenied
  | noSettings
  | typeError
deriving DecidableEq, Repr

end CoderMind

namespace CoderMind.Articles

open CoderMind

/-- `checkValidStates` from `articles.js`: the wanted state must be one of
`boosted`, `inactivated`, `published`, with `removed` added when
`includingRemove` is set. -/
def checkValidStates (state : AState) (includingRemove : Bool) : Except Err Unit :=
  if state = .boosted ∨ state = .inactivated ∨ state = .published ∨
      (includingRemove = true ∧ state = .removed) then
    .ok ()
  else
    .error .invalidState

/-- Count of one author's boosted articles,
`Article.countDocuments (userId, state: boosted)`. -/
def boostedCount (db : DB) (uid : OId) : Nat :=
  db.articles.countP (fun a => a.userId == uid && a.state == AState.boosted)

/-- `validateState` from `articles.js`: rejects `removed`, checks the state
is valid, loads the article (`NotFound` if absent), checks ownership for
non-admins, rejects a no-op transition, and applies the hard-coded boosted
quota: any caller carrying `tagAuthor` with more than one boosted article
is rejected, whatever state was requested. -/
def validateState (db : DB) (id : OId) (user : AppUser) (state : AState) :
    Except Err Article :=
  if state = .removed then
    .error .useDeleteForRemove
  else match checkValidStates state false with
  | .error e => .error e
  | .ok _ =>
    match db.articles.find? (fun a => a._id == id) with
    | none => .error .articleNotFound
    | some article =>
      if user.tagAdmin = false ∧ user._id ≠ article.userId then
        .error .forbidden
      else if article.state = state then
        .error .noOpState
      else if user.tagAuthor = true ∧ 1 < boostedCount db user._id then
        .error .quotaExceeded
      else
        .ok article

/-- The per-state timestamp field `article[stateTimestamp]` read by
`changeState` (only the three states accepted by `validateState` occur). -/
def stateTs (a : Article) : AState → Option Nat
  | .published => a.publishedAt
  | .boosted => a.boostedAt
  | .inactivated => a.inactivatedAt
  | _ => none

/-- Write `state` together with its `stateTimestamp` field. -/
def setStateTs (a : Article) (state : AState) (v : Option Nat) : Article :=
  match state with
  | .published => { a with state := state, publishedAt := v }
  | .boosted => { a with state := state, boostedAt := v }
  | .inactivated => { a with state := state, inactivatedAt := v }
  | _ => { a with state := state }

/-- Mongo `updateOne` on filter `_id = id`: modifies the first matching
document only. -/
def updateOneById (as : List Article) (id : OId) (f : Article → Article) :
    List Article :=
  match as with
  | [] => []
  | a :: rest =>
    if a._id = id then f a :: rest else a :: updateOneById rest id f

/-- `changeState` from `articles.js`: on successful validation, sets the
state and stamps the timestamp only when it was unset
(`!article[stateTimestamp] ? MyDate.setTimeZone(..) : article[stateTimestamp]`). -/
def changeState (db : DB) (user : AppUser) (id : OId) (state : AState)
    (now : Nat) : Except Err DB :=
  (validateState db id user state).map fun article =>
    { db with
      articles := updateOneById db.articles id (fun a =>
        setStateTs a state
          (if (stateTs article state).isNone then some now
           else stateTs article state)) }

/-- `remove` from `articles.js`: loads the article, checks ownership and
that it is not already removed, then sets `state = removed`, stamps
`removedAt` with the current time and replaces `customUri` with a freshly
generated default. -/
def remove (db : DB) (user : AppUser) (id : OId) (now : Nat)
    (freshUri : String) : Except Err DB :=
  match db.articles.find? (fun a => a._id == id) with
  | none => .error .articleNotFound
  | some article =>
    if user.tagAdmin = false ∧ user._id ≠ article.userId then
      .error .forbidden
    else if article.state = .removed then
      .error .alreadyRemoved
    else
      .ok { db with
        articles := updateOneById db.articles id (fun a =>
          { a with state := .removed, removedAt := some now,
                   customUri := freshUri }) }

/-- The origin filter of `checkArticlesForMultipleChanges`: the `switch`
selecting which found articles are eligible for the requested state. -/
def eligibleForChange (state : AState) (a : Article) : Bool :=
  match state with
  | .published => a.state == .inactivated || a.state == .draft
  | .boosted => a.state == .published
  | .inactivated => a.state == .published || a.state == .boosted
  | .removed => a.state == .draft
  | _ => false

/-- `checkArticlesForMultipleChanges` from `articles.js`: validates the
state (including `removed`), requires a non-empty id list, applies the
non-admin bulk boost guard (`boostedArticles >= 1 || articlesId.length > 1`),
then returns the ids of the given articles whose current state is eligible
for the requested state. -/
def checkArticlesForMultipleChanges (db : DB) (user : AppUser)
    (articlesId : List OId) (state : AState) : Except Err (List OId) :=
  match checkValidStates state true with
  | .error e => .error e
  | .ok _ =>
    if articlesId.length = 0 then
      .error .articlesIdEmpty
    else if user.tagAdmin = false ∧ state = .boosted ∧
        (1 ≤ boostedCount db user._id ∨ 1 < articlesId.length) then
      .error .multiBoostForbidden
    else
      let articles := db.articles.filter (fun a => articlesId.contains a._id)
      let articlesToChange := articles.filter (eligibleForChange state)
      .ok (articlesToChange.map (fun a => a._id))

/-- `changeStates` from `articles.js`: Mongo `updateMany` restricted to
`_id ∈ articlesToChange ∧ userId = user._id`, setting the state only. -/
def changeStates (db : DB) (user : AppUser) (articlesId : List OId)
    (state : AState) : Except Err DB :=
  (checkArticlesForMultipleChanges db user articlesId state).map fun toChange =>
    { db with
      articles := db.articles.map (fun a =>
        if toChange.contains a._id ∧ a.userId = user._id then
          { a with state := state }
        else a) }

end CoderMind.Articles

namespace CoderMind.Articles

open CoderMind

/-- `hasOwnProperty` patch model for the article update path: `some s`
means the property is present in the request body (possibly with a falsy
value), `none` that it is absent.  `themeId`/`categoryId` use plain
`Option` because the source only tests their truthiness. -/
structure ArticlePatch where
  title : Option String
  customUri : Option String
  themeId : Option OId
  categoryId : Option OId
  description : Option String
  content : Option String
deriving DecidableEq, Repr

/-- The `active` reference-data state. -/
def activeStr : String := "active"

/-- `validateFields` from `articles.js`.  Note the translation of
`const currentArticle = await Article.findOne(..)` followed directly by
`currentArticle.userId.toString()`: when no article matches, the source
dereferences `null` and raises a raw `TypeError` — there is no
not-found check on this path. -/
def validateFields (db : DB) (patch : ArticlePatch) (id : OId)
    (user : AppUser) : Except Err ArticlePatch := do
  match patch.title with
  | some t => if t = "" then throw .titleRequired else pure ()
  | none => pure ()
  match patch.customUri with
  | some u => if u = "" then throw .customUriRequired else pure ()
  | none => pure ()
  match db.articles.find? (fun a => a._id == id) with
  | none => throw .typeError
  | some currentArticle => do
    if user._id ≠ currentArticle.userId then
      throw .forbidden
    match patch.themeId with
    | some tid =>
      match db.themes.find? (fun t => t._id == tid && t.themeState == activeStr) with
      | none => throw .themeNotFound
      | some _ => pure ()
    | none => pure ()
    match patch.categoryId with
    | some cid => do
      if currentArticle.themeId = none ∧ patch.themeId = none then
        throw .categoryNeedsTheme
      match db.categories.find? (fun c => c._id == cid && c.catState == activeStr) with
      | none => throw .categoryNotFound
      | some category =>
        match db.themes.find? (fun t => t._id == category.themeId && t.themeState == activeStr) with
        | none => throw .categoryThemeInactive
        | some theme =>
          match patch.themeId with
          | some tid => if theme._id ≠ tid then throw .themeMismatch else pure ()
          | none => pure ()
    | none => pure ()
    return { patch with
      customUri := patch.customUri.map (fun s => s.replace (" ") ("")) }

/-- Apply a validated patch to a stored article (`Article.updateOne`):
present fields overwrite, absent fields are untouched; `userId`, `state`
and the image fields were already stripped by `validateFields`. -/
def applyPatch (p : ArticlePatch) (a : Article) : Article :=
  { a with
    title := p.title.getD a.title
    customUri := p.customUri.getD a.customUri
    themeId := match p.themeId with | some t => some t | none => a.themeId
    categoryId := match p.categoryId with | some c => some c | none => a.categoryId
    description := p.description.getD a.description
    content := p.content.getD a.content }

/-- `save` from `articles.js` (the article update middleware). -/
def save (db : DB) (id : OId) (patch : ArticlePatch) (user : AppUser) :
    Except Err DB :=
  (validateFields db patch id user).map fun validated =>
    { db with articles := updateOneById db.articles id (applyPatch validated) }

end CoderMind.Articles

namespace CoderMind.Comments

open CoderMind

/-- Day-granularity order on `SDate` (year, then month, then day). -/
def SDate.leb (a b : SDate) : Bool :=
  a.year < b.year ||
    (a.year == b.year && (a.month < b.month ||
      (a.month == b.month && a.day ≤ b.day)))

/-- Strict day-granularity order on `SDate`. -/
def SDate.ltb (a b : SDate) : Bool :=
  a.year < b.year ||
    (a.year == b.year && (a.month < b.month ||
      (a.month == b.month && a.day < b.day)))

/-- First article whose `_id` matches the comment's `articleId`
(the `$lookup from articles` + `$arrayElemAt 0` stages). -/
def resolveArticle (db : DB) (c : Comment) : Option Article :=
  db.articles.find? (fun a => a._id == c.articleId)

/-- The `_id` of the comment's article author after the
`$lookup from users on article.author` + `$arrayElemAt 0` stages: `none`
when either the article or its author does not resolve. -/
def commentOwner (db : DB) (c : Comment) : Option OId :=
  (resolveArticle db c).bind fun a =>
    (db.users.find? (fun u => u._id == a.author)).map (fun u => u._id)

/-- The `$lookup from comments on answerOf` + `$arrayElemAt 0` stages of
the item pipelines: the parent comment, or `none` when `answerOf` is null
or dangling. -/
def resolvedAnswerOf (db : DB) (c : Comment) : Option Comment :=
  c.answerOf.bind fun p => db.comments.find? (fun x => x._id == p)

/-- `$match` of the `getAllComments` item pipeline: the author owns the
comment's article and the looked-up `answerOf` is null. -/
def allItemsPred (db : DB) (uid : OId) (c : Comment) : Bool :=
  commentOwner db c == some uid && (resolvedAnswerOf db c).isNone

/-- `$match` of the `getNotReadedComments` item pipeline. -/
def notReadedItemsPred (db : DB) (uid : OId) (c : Comment) : Bool :=
  allItemsPred db uid c && c.readedAt.isNone

/-- `$match` of the `getOnlyReadedComments` item pipeline
(`readedAt: $ne null`). -/
def onlyReadedItemsPred (db : DB) (uid : OId) (c : Comment) : Bool :=
  allItemsPred db uid c && c.readedAt.isSome

/-- `$match` of the `getAllComments` count pipeline (here `answerOf` is
still the raw stored reference). -/
def allCountPred (db : DB) (uid : OId) (c : Comment) : Bool :=
  commentOwner db c == some uid && c.answerOf.isNone

/-- Count query of `getAllComments`. -/
def getAllCommentsCount (db : DB) (uid : OId) : Nat :=
  db.comments.countP (allCountPred db uid)

/-- Count query of `getNotReadedComments`. -/
def getNotReadedCount (db : DB) (uid : OId) : Nat :=
  db.comments.countP (fun c => allCountPred db uid c && c.readedAt.isNone)

/-- Count query of `getOnlyReadedComments`. -/
def getOnlyReadedCount (db : DB) (uid : OId) : Nat :=
  db.comments.countP (fun c => allCountPred db uid c && c.readedAt.isSome)

/-- Insert into a list already sorted by `createdAt` descending. -/
def insertDesc (c : Comment) : List Comment → List Comment
  | [] => [c]
  | x :: xs =>
    if SDate.leb x.createdAt c.createdAt then c :: x :: xs
    else x :: insertDesc c xs

/-- `$sort createdAt: -1` (stable sort, modelled by insertion sort). -/
def sortCreatedDesc (l : List Comment) : List Comment :=
  l.foldr insertDesc []

/-- `.skip(page * limit - limit).limit(limit)`. -/
def paginate (l : List Comment) (page limit : Nat) : List Comment :=
  (l.drop (page * limit - limit)).take limit

/-- The full (pre-pagination) match set of the `all` partition. -/
def allCommentsMatch (db : DB) (uid : OId) : List Comment :=
  db.comments.filter (allItemsPred db uid)

/-- The full (pre-pagination) match set of the `not-readed` partition. -/
def notReadedMatch (db : DB) (uid : OId) : List Comment :=
  db.comments.filter (notReadedItemsPred db uid)

/-- The full (pre-pagination) match set of the `only-readed` partition. -/
def onlyReadedMatch (db : DB) (uid : OId) : List Comment :=
  db.comments.filter (onlyReadedItemsPred db uid)

/-- `getAllComments` from `comments.js`: one page of matching root
comments plus the independently computed total count. -/
def getAllComments (db : DB) (uid : OId) (page limit : Nat) :
    List Comment × Nat :=
  (paginate (sortCreatedDesc (allCommentsMatch db uid)) page limit,
    getAllCommentsCount db uid)

/-- `getNotReadedComments` from `comments.js`. -/
def getNotReadedComments (db : DB) (uid : OId) (page limit : Nat) :
    List Comment × Nat :=
  (paginate (sortCreatedDesc (notReadedMatch db uid)) page limit,
    getNotReadedCount db uid)

/-- `getOnlyReadedComments` from `comments.js`. -/
def getOnlyReadedComments (db : DB) (uid : OId) (page limit : Nat) :
    List Comment × Nat :=
  (paginate (sortCreatedDesc (onlyReadedMatch db uid)) page limit,
    getOnlyReadedCount db uid)

/-- The denormalized single-comment view produced by `getOne`:
the root comment joined with its article and its direct answers. -/
structure CommentView where
  base : Comment
  article : Option Article
  answers : List Comment
deriving DecidableEq, Repr

/-- `getOne` from `comments.js`: the pipeline matches `_id` and a null
looked-up `answerOf`, then joins the article and the direct answers;
`comments[0]` is `none` when nothing matched. -/
def getOne (db : DB) (id : OId) : Option CommentView :=
  ((db.comments.filter (fun c =>
      c._id == id && (resolvedAnswerOf db c).isNone)).head?).map fun c =>
    { base := c
      article := resolveArticle db c
      answers := db.comments.filter (fun x => x.answerOf == some c._id) }

/-- Result of the `answerComment` middleware: the updated store, the HTTP
status and the (absent) response payload. -/
structure AnswerOut where
  db : DB
  code : Nat
  body : Option Comment
deriving DecidableEq, Repr

/-- JS promise chaining: the value of `p.then(cb)` is whatever the
callback returns. -/
def jsThen (x : α) (f : α → Option β) : Option β := f x

/-- `answerComment` from `comments.js`.  `root.status` is always true for
a well-formed id, so a missing root comment or a dangling article makes
`root.comment.article._id` a raw `TypeError`; `if (!articleId)` only
fires on a falsy id.  The created answer is persisted, but
`createdAnswer = comment.save().then(cb)` where the callback only
dispatches the notification e-mail and returns `undefined`, so the 201
response carries no payload. -/
def answerComment (db : DB) (user : AppUser) (answerOf : OId)
    (answer : String) (_sendNotification : String) (newId : OId)
    (now : SDate) : Except Err AnswerOut :=
  if 10000 < answer.length then
    .error .answerTooLong
  else match getOne db answerOf with
  | none => .error .typeError
  | some root =>
    match root.article with
    | none => .error .typeError
    | some art =>
      if art._id = 0 then
        .error .commentRootNotFound
      else
        let comment : Comment :=
          { _id := newId, articleId := art._id, answerOf := some answerOf,
            userName := user.name, userEmail := user.email,
            message := answer, confirmedAt := none, readedAt := none,
            createdAt := now }
        let createdAnswer := jsThen comment (fun _ => (none : Option Comment))
        .ok { db := { db with comments := db.comments ++ [comment] },
              code := 201, body := createdAnswer }

/-- Gregorian leap-year test, as JS `Date` implements it. -/
def isLeap (y : Int) : Bool :=
  y % 4 == 0 && (y % 100 != 0 || y % 400 == 0)

/-- Days in a (0-based) month of a given year. -/
def daysInMonth (y : Int) (m : Nat) : Nat :=
  match m with
  | 0 => 31
  | 1 => if isLeap y then 29 else 28
  | 2 => 31
  | 3 => 30
  | 4 => 31
  | 5 => 30
  | 6 => 31
  | 7 => 31
  | 8 => 30
  | 9 => 31
  | 10 => 30
  | _ => 31

/-- `new Date(year, month, day)` at day granularity for `day ≤ 31`:
a day past the end of the month overflows into the following month,
exactly the JS normalization the stats job relies on. -/
def jsDate (y : Int) (m d : Nat) : SDate :=
  if daysInMonth y m < d then
    if m = 11 then ⟨y + 1, 0, d - daysInMonth y m⟩
    else ⟨y, m + 1, d - daysInMonth y m⟩
  else ⟨y, m, d⟩

/-- `createdAt: $gte firstDay, $lt lastDay`. -/
def inStatsWindow (firstDay lastDay : SDate) (c : Comment) : Bool :=
  SDate.leb firstDay c.createdAt && SDate.ltb c.createdAt lastDay

/-- `$match` of the per-user pipeline of `commentsJob`: the comment's
article (joined, first match) has `author` equal to the user, the raw
`answerOf` is null, and `createdAt` lies in the window. -/
def jobUserPred (db : DB) (uid : OId) (firstDay lastDay : SDate)
    (c : Comment) : Bool :=
  ((resolveArticle db c).map (fun a => a.author)) == some uid &&
    c.answerOf.isNone && inStatsWindow firstDay lastDay c

/-- `commentsJob` from `comments.js`: for the current month it appends to
the relational `comments` table one row per non-deleted user with that
user's root-comment count over `[new Date(y, m, 1), new Date(y, m, 31))`,
then one platform-wide row with a null reference. -/
def commentsJob (currentYear : Int) (currentMonth : Nat) (db : DB)
    (stats : List StatRecord) : List StatRecord :=
  let firstDay : SDate := ⟨currentYear, currentMonth, 1⟩
  let lastDay : SDate := jsDate currentYear currentMonth 31
  let users := db.users.filter (fun u => u.deletedAt.isNone)
  let userRows := users.map fun u =>
    { month := currentMonth + 1, year := currentYear,
      count := db.comments.countP (jobUserPred db u._id firstDay lastDay),
      reference := some u._id : StatRecord }
  let globalCount := db.comments.countP fun c =>
    inStatsWindow firstDay lastDay c && c.answerOf.isNone
  stats ++ userRows ++
    [{ month := currentMonth + 1, year := currentYear,
       count := globalCount, reference := none }]

end CoderMind.Comments

namespace CoderMind.Settings

open CoderMind

/-- The enumerated option strings of `comment_settings`. -/
def sAll : String := "all"

/-- `not-readed` option value. -/
def sNotReaded : String := "not-readed"

/-- `only-readed` option value. -/
def sOnlyReaded : String := "only-readed"

/-- `disabled` option value. -/
def sDisabled : String := "disabled"

/-- `enabled` option value. -/
def sEnabled : String := "enabled"

/-- ascending order value. -/
def sAsc : String := "asc"

/-- descending order value. -/
def sDesc : String := "desc"

/-- The request body of the settings `save` middleware: `none` is an
absent (or `undefined`/`null`) property.  `notify` is `some b` exactly
when the body carries a definite boolean. -/
structure SettingsPatch where
  notify : Option Bool
  limit : Option Int
  order : Option String
  type : Option String
  answersOrder : Option String
  answersType : Option String
deriving DecidableEq, Repr

/-- `verifyUser` from `settings.js`: the user must exist and not be
soft-deleted; the second check compares the found row's id with the
caller's id (it can only fire if the lookup and the comparison disagree). -/
def verifyUser (db : DB) (user : AppUser) : Except Err Unit := do
  match db.users.find? (fun u => u._id == user._id && u.deletedAt.isNone) with
  | none => throw .userNotFound
  | some userInDb =>
    if userInDb._id ≠ user._id then throw .accessDenied else pure ()

/-- `verifyEnumFields` from `settings.js`: each enumerated field, if
present and truthy, must be one of its allowed values (a present empty
string is falsy in JS and skips the check). -/
def verifyEnumFields (p : SettingsPatch) : Except Err Unit := do
  match p.answersType with
  | some s =>
    if s ≠ "" ∧ s ≠ sAll ∧ s ≠ sNotReaded ∧ s ≠ sOnlyReaded ∧
        s ≠ sDisabled ∧ s ≠ sEnabled then
      throw .answersTypeInvalid
    else pure ()
  | none => pure ()
  match p.type with
  | some s =>
    if s ≠ "" ∧ s ≠ sAll ∧ s ≠ sNotReaded ∧ s ≠ sOnlyReaded ∧
        s ≠ sDisabled ∧ s ≠ sEnabled then
      throw .typeInvalid
    else pure ()
  | none => pure ()
  match p.answersOrder with
  | some s =>
    if s ≠ "" ∧ s ≠ sDesc ∧ s ≠ sAsc then
      throw .answersOrderInvalid
    else pure ()
  | none => pure ()
  match p.order with
  | some s =>
    if s ≠ "" ∧ s ≠ sDesc ∧ s ≠ sAsc then
      throw .orderInvalid
    else pure ()
  | none => pure ()

/-- JS `patchValue || previous` for a string column: an absent or falsy
(empty) patch value keeps the previous one. -/
def jsOrS (v : Option String) (prev : String) : String :=
  match v with
  | some s => if s = "" then prev else s
  | none => prev

/-- JS `patchValue || previous` for a numeric column: an absent or falsy
(zero) patch value keeps the previous one. -/
def jsOrI (v : Option Int) (prev : Int) : Int :=
  match v with
  | some n => if n = 0 then prev else n
  | none => prev

/-- The response row of the settings `get`/`save` middlewares, with
`notify` coerced by `Boolean(settings.notify)`. -/
structure SettingsView where
  userId : OId
  limit : Int
  notify : Bool
  order : String
  type : String
  answersType : String
  answersOrder : String
deriving DecidableEq, Repr

/-- Project a stored row to the response shape
(`settings.notify = Boolean(settings.notify)`). -/
def toView (r : SettingsRow) : SettingsView :=
  { userId := r.userId, limit := r.limit, notify := r.notify ≠ 0,
    order := r.order, type := r.type,
    answersType := r.answers_type, answersOrder := r.answers_order }

/-- Result of the settings `get` middleware: the 304 cache short-circuit
or the settings payload. -/
inductive GetOut where
  | notModified
  | payload (v : SettingsView)
deriving DecidableEq, Repr

/-- The body of the settings `get` middleware after the cache
short-circuit: verifies the user, loads the row (`NoSettings` when
absent) and returns it with `notify` coerced. -/
def getAfterTtl (db : DB) (user : AppUser) : Except Err GetOut :=
  match verifyUser db user with
  | .error e => .error e
  | .ok _ =>
    match db.settingsRows.find? (fun r => r.userId == user._id) with
    | none => .error .noSettings
    | some settings => .ok (.payload (toView settings))

/-- `get` from `settings.js`: honours the `cm-ttl-comments` header when
present (truthy) and not expired, then runs the body. -/
def get (db : DB) (user : AppUser) (ttlHeader : Option Int) (now : Int) :
    Except Err GetOut :=
  match ttlHeader with
  | some ttl =>
    if ttl ≠ 0 ∧ now ≤ ttl then .ok .notModified else getAfterTtl db user
  | none => getAfterTtl db user

/-- The merged row written by the update branch of `save`.  Note the
`notify` rule from the source:
`notify !== undefined && notify !== null ? notify : currentSettings.limit` —
an indefinite `notify` stores the previous `limit`, not the previous
`notify`. -/
def mergedRow (currentSettings : SettingsRow) (p : SettingsPatch) :
    SettingsRow :=
  { userId := currentSettings.userId
    limit := jsOrI p.limit currentSettings.limit
    notify := match p.notify with
      | some b => if b then 1 else 0
      | none => currentSettings.limit
    order := jsOrS p.order currentSettings.order
    type := jsOrS p.type currentSettings.type
    answers_order := jsOrS p.answersOrder currentSettings.answers_order
    answers_type := jsOrS p.answersType currentSettings.answers_type }

/-- Result of the settings `save` middleware: updated store, refreshed
settings payload, and the new `ttl = now + 30 days`. -/
structure SaveOut where
  db : DB
  view : SettingsView
  ttl : Int
deriving DecidableEq, Repr

/-- The row written by the insert branch of `save`: only the provided
fields, missing columns falling back to storage defaults (modelled as
zero/empty — the column defaults live in the migrations, outside the
sources shown). -/
def insertRow (user : AppUser) (p : SettingsPatch) : SettingsRow :=
  { userId := user._id
    limit := p.limit.getD 0
    notify := match p.notify with
      | some b => if b then 1 else 0
      | none => 0
    order := p.order.getD ""
    type := p.type.getD ""
    answers_order := p.answersOrder.getD ""
    answers_type := p.answersType.getD "" }

/-- `save` from `settings.js`: validates the enum fields and the user;
inserts a new row from the provided fields when none exists, otherwise
merges with `patch || previous` per column (with the `notify` quirk);
finally re-reads the row and returns it with a fresh ttl. -/
def save (db : DB) (user : AppUser) (p : SettingsPatch) (now : Int) :
    Except Err SaveOut :=
  match verifyEnumFields p with
  | .error e => .error e
  | .ok _ =>
    match verifyUser db user with
    | .error e => .error e
    | .ok _ =>
      let rows :=
        match db.settingsRows.find? (fun r => r.userId == user._id) with
        | none => db.settingsRows ++ [insertRow user p]
        | some currentSettings =>
          db.settingsRows.map fun r =>
            if r.userId == user._id then mergedRow currentSettings p else r
      match rows.find? (fun r => r.userId == user._id) with
      | none => .error .typeError
      | some settings =>
        .ok { db := { db with settingsRows := rows }
              view := toView settings
              ttl := now + 1000 * 60 * 60 * 24 * 30 }

end CoderMind.Settings

namespace CoderMind.Articles

open CoderMind

/-- The database after a middleware call: unchanged when the request
failed with an error response. -/
def resultDB (db : DB) (r : Except Err DB) : DB :=
  match r with
  | .ok db2 => db2
  | .error _ => db

/-- `changeState` as a database transformer. -/
def runChangeState (db : DB) (user : AppUser) (id : OId) (state : AState)
    (now : Nat) : DB :=
  resultDB db (changeState db user id state now)

/-- `changeStates` as a database transformer. -/
def runChangeStates (db : DB) (user : AppUser) (articlesId : List OId)
    (state : AState) : DB :=
  resultDB db (changeStates db user articlesId state)

/-- `remove` as a database transformer. -/
def runRemove (db : DB) (user : AppUser) (id : OId) (now : Nat)
    (freshUri : String) : DB :=
  resultDB db (remove db user id now freshUri)

/-- One request against the two state-transition middlewares. -/
inductive LifecycleCall where
  | single (user : AppUser) (id : OId) (state : AState) (now : Nat)
  | bulk (user : AppUser) (ids : List OId) (state : AState)
deriving DecidableEq, Repr

/-- The acting (already authenticated) user of a call. -/
def LifecycleCall.user : LifecycleCall → AppUser
  | .single u _ _ _ => u
  | .bulk u _ _ => u

/-- Execute one call against the store. -/
def applyCall (db : DB) : LifecycleCall → DB
  | .single u id st now => runChangeState db u id st now
  | .bulk u ids st => runChangeStates db u ids st

/-- Execute a finite sequence of calls, left to right. -/
def applyCalls (db : DB) (cs : List LifecycleCall) : DB :=
  cs.foldl applyCall db

/-- The origin sets declared by the specification for bulk transitions:
`published` admits from `inactivated`/`draft`, `boosted` from `published`,
`inactivated` from `published`/`boosted`, `removed` from `draft` only. -/
def specOriginStates : AState → List AState
  | .published => [.inactivated, .draft]
  | .boosted => [.published]
  | .inactivated => [.published, .boosted]
  | .removed => [.draft]
  | .draft => []

theorem eligibleForChange_iff (st : AState) (a : Article) :
    eligibleForChange st a = true ↔ a.state ∈ specOriginStates st := by
  cases st <;> cases h : a.state <;>
    simp [eligibleForChange, specOriginStates, h]

theorem setStateTs_oid (a : Article) (st : AState) (v : Option Nat) :
    (setStateTs a st v)._id = a._id := by
  cases st <;> rfl

theorem setStateTs_userId (a : Article) (st : AState) (v : Option Nat) :
    (setStateTs a st v).userId = a.userId := by
  cases st <;> rfl

theorem setStateTs_removedAt (a : Article) (st : AState) (v : Option Nat) :
    (setStateTs a st v).removedAt = a.removedAt := by
  cases st <;> rfl

theorem setStateTs_state (a : Article) (st : AState) (v : Option Nat) :
    (setStateTs a st v).state = st := by
  cases st <;> rfl

theorem updateOneById_decomp (as : List Article) (id : OId)
    (f : Article → Article) (a : Article)
    (h : as.find? (fun x => x._id == id) = some a) :
    ∃ l r, as = l ++ a :: r ∧ updateOneById as id f = l ++ f a :: r ∧
      a._id = id := by
  induction as with
  | nil => simp at h
  | cons x rest ih =>
    by_cases hx : x._id = id
    · rw [List.find?_cons_of_pos rest (by simpa using hx)] at h
      cases h
      exact ⟨[], rest, rfl, by simp [updateOneById, hx], hx⟩
    · rw [List.find?_cons_of_neg rest (by simpa using hx)] at h
      obtain ⟨l, r, h1, h2, h3⟩ := ih h
      exact ⟨x :: l, r, by simp [h1], by simp [updateOneById, hx, h2], h3⟩

theorem updateOneById_getElem (as : List Article) (id : OId)
    (f : Article → Article) (i : Nat) :
    (updateOneById as id f)[i]? = as[i]? ∨
      ∃ a, as[i]? = some a ∧ (updateOneById as id f)[i]? = some (f a) := by
  induction as generalizing i with
  | nil => left; simp [updateOneById]
  | cons x rest ih =>
    by_cases hx : x._id = id
    · cases i with
      | zero => right; exact ⟨x, by simp, by simp [updateOneById, hx]⟩
      | succ n => left; simp [updateOneById, hx]
    · cases i with
      | zero => left; simp [updateOneById, hx]
      | succ n => simpa [updateOneById, hx] using ih n

theorem updateOneById_map (as : List Article) (id : OId)
    (f : Article → Article) (g : Article → Nat)
    (hf : ∀ a, g (f a) = g a) :
    (updateOneById as id f).map g = as.map g := by
  induction as with
  | nil => rfl
  | cons x rest ih =>
    by_cases hx : x._id = id <;> simp [updateOneById, hx, hf, ih]

theorem ite_one_zero_le (c : Prop) [Decidable c] :
    (if c then (1 : Nat) else 0) ≤ 1 := by
  split <;> omega

theorem countP_or_le (p q : Article → Bool) (l : List Article) :
    l.countP (fun a => p a || q a) ≤ l.countP p + l.countP q := by
  induction l with
  | nil => simp
  | cons x rest ih =>
    by_cases hp : p x <;> by_cases hq : q x <;>
      simp [List.countP_cons, hp, hq] <;> omega

theorem countP_le_of_imp (p q : Article → Bool) (l : List Article)
    (h : ∀ a ∈ l, p a = true → q a = true) :
    l.countP p ≤ l.countP q :=
  List.countP_mono_left h

theorem countP_map_le (p : Article → Bool) (g : Article → Article)
    (q : Article → Bool) (l : List Article)
    (h : ∀ a ∈ l, p (g a) = true → q a = true) :
    (l.map g).countP p ≤ l.countP q := by
  rw [List.countP_map]
  exact List.countP_mono_left h

theorem countP_id_le_one (as : List Article) (i : OId)
    (h : (as.map (fun x => x._id)).Nodup) :
    as.countP (fun a => a._id == i) ≤ 1 := by
  have h1 : as.countP (fun a => a._id == i) =
      (as.map (fun x => x._id)).countP (fun v => v == i) := by
    rw [List.countP_map]
    rfl
  rw [h1]
  have h2 := List.nodup_iff_count_le_one.mp h i
  simpa [List.count] using h2

theorem mem_eq_of_nodup_ids (as : List Article) (a b : Article)
    (h : (as.map (fun x => x._id)).Nodup) (ha : a ∈ as) (hb : b ∈ as)
    (hid : a._id = b._id) : a = b :=
  List.inj_on_of_nodup_map h ha hb hid

end CoderMind.Articles

namespace CoderMind.Articles

open CoderMind

theorem validateState_ok (db : DB) (id : OId) (u : AppUser) (st : AState)
    (a : Article) (h : validateState db id u st = .ok a) :
    db.articles.find? (fun x => x._id == id) = some a ∧
      (u.tagAdmin = false → u._id = a.userId) ∧ a.state ≠ st ∧
      (u.tagAuthor = true → boostedCount db u._id ≤ 1) := by
  unfold validateState at h
  split at h
  · cases h
  · split at h
    · cases h
    · split at h
      · cases h
      · next article heq =>
        split at h
        · cases h
        · next hOwn =>
          split at h
          · cases h
          · next hNoOp =>
            split at h
            · cases h
            · next hQuota =>
              cases h
              refine ⟨heq, ?_, hNoOp, ?_⟩
              · intro hadm
                by_contra hne
                exact hOwn ⟨hadm, hne⟩
              · intro hauth
                by_contra hgt
                exact hQuota ⟨hauth, by omega⟩

theorem checkMulti_ok (db : DB) (u : AppUser) (ids : List OId)
    (st : AState) (toChange : List OId)
    (h : checkArticlesForMultipleChanges db u ids st = .ok toChange) :
    toChange = ((db.articles.filter (fun a => ids.contains a._id)).filter
        (eligibleForChange st)).map (fun a => a._id) ∧
      (u.tagAdmin = false → st = .boosted →
        boostedCount db u._id = 0 ∧ ids.length = 1) := by
  unfold checkArticlesForMultipleChanges at h
  split at h
  · cases h
  · split at h
    · cases h
    · next hlen =>
      split at h
      · cases h
      · next hguard =>
        cases h
        refine ⟨rfl, ?_⟩
        intro hadm hst
        push_neg at hguard
        obtain ⟨h1, h2⟩ := hguard hadm hst
        omega

theorem runChangeState_boost_le (db : DB) (u : AppUser) (id : OId)
    (st : AState) (now : Nat) (A : OId)
    (hadm : u.tagAdmin = false)
    (hauth : u._id = A → u.tagAuthor = true)
    (hle : boostedCount db A ≤ 2) :
    boostedCount (runChangeState db u id st now) A ≤ 2 := by
  unfold runChangeState changeState
  cases hv : validateState db id u st with
  | error e => exact hle
  | ok article =>
    obtain ⟨hfind, hown, hnoop, hquota⟩ := validateState_ok db id u st article hv
    obtain ⟨l, r, hsplit, hupd, -⟩ := updateOneById_decomp db.articles id
      (fun a => setStateTs a st
        (if (stateTs article st).isNone then some now else stateTs article st))
      article hfind
    show boostedCount
      { db with articles := updateOneById db.articles id _ } A ≤ 2
    unfold boostedCount at hle ⊢
    simp only at hle ⊢
    rw [hupd, List.countP_append, List.countP_cons]
    rw [hsplit, List.countP_append, List.countP_cons] at hle
    by_cases hA : article.userId = A
    · have huid : u._id = A := by rw [hown hadm, hA]
      have hAuth2 : u.tagAuthor = true := hauth huid
      have hcnt : boostedCount db u._id ≤ 1 := hquota hAuth2
      rw [huid] at hcnt
      unfold boostedCount at hcnt
      rw [hsplit, List.countP_append, List.countP_cons] at hcnt
      by_cases hst : st = AState.boosted
      · have hbn : article.state ≠ AState.boosted := by rw [← hst]; exact hnoop
        have hpa : (article.userId == A && article.state == AState.boosted) = false := by
          simp [hbn]
        rw [hpa] at hcnt
        have hite :
            (if ((setStateTs article st
                (if (stateTs article st).isNone then some now
                 else stateTs article st)).userId == A &&
              (setStateTs article st
                (if (stateTs article st).isNone then some now
                 else stateTs article st)).state == AState.boosted) = true
             then 1 else 0) ≤ 1 := ite_one_zero_le _
        simp only [Bool.false_eq_true, if_false] at hcnt
        omega
      · have hpg : ((setStateTs article st
            (if (stateTs article st).isNone then some now
             else stateTs article st)).userId == A &&
            (setStateTs article st
              (if (stateTs article st).isNone then some now
               else stateTs article st)).state == AState.boosted) = false := by
          simp [setStateTs_state, hst]
        rw [hpg]
        simp only [Bool.false_eq_true, if_false]
        omega
    · have hpa : (article.userId == A && article.state == AState.boosted) = false := by
        simp [hA]
      have hpg : ((setStateTs article st
          (if (stateTs article st).isNone then some now
           else stateTs article st)).userId == A &&
          (setStateTs article st
            (if (stateTs article st).isNone then some now
             else stateTs article st)).state == AState.boosted) = false := by
        simp [setStateTs_userId, hA]
      rw [hpg]
      rw [hpa] at hle
      simp only [Bool.false_eq_true, if_false] at hle ⊢
      omega

end CoderMind.Articles

namespace CoderMind.Articles

open CoderMind

theorem runChangeStates_boost_le (db : DB) (u : AppUser) (ids : List OId)
    (st : AState) (A : OId)
    (hnd : (db.articles.map (fun x => x._id)).Nodup)
    (hadm : u.tagAdmin = false)
    (hle : boostedCount db A ≤ 2) :
    boostedCount (runChangeStates db u ids st) A ≤ 2 := by
  unfold runChangeStates changeStates
  cases hc : checkArticlesForMultipleChanges db u ids st with
  | error e => exact hle
  | ok toChange =>
    obtain ⟨htc, hguard⟩ := checkMulti_ok db u ids st toChange hc
    show boostedCount { db with articles := db.articles.map _ } A ≤ 2
    unfold boostedCount at hle ⊢
    simp only at hle ⊢
    by_cases hst : st = AState.boosted
    · by_cases huid : u._id = A
      · obtain ⟨hcnt0, hlen1⟩ := hguard hadm hst
        obtain ⟨i, hi⟩ : ∃ i, ids = [i] := by
          cases ids with
          | nil => simp at hlen1
          | cons x xs =>
            cases xs with
            | nil => exact ⟨x, rfl⟩
            | cons y ys => simp at hlen1
        have hmap : (db.articles.map (fun a =>
            if toChange.contains a._id ∧ a.userId = u._id
            then { a with state := st } else a)).countP
              (fun a => a.userId == A && a.state == AState.boosted) ≤
            db.articles.countP (fun a =>
              (a.userId == A && a.state == AState.boosted) || a._id == i) := by
          apply countP_map_le
          intro a _ hpga
          by_cases hcond : toChange.contains a._id ∧ a.userId = u._id
          · have hidmem : a._id ∈ toChange := by simpa using hcond.1
            rw [htc] at hidmem
            obtain ⟨b, hb, hbid⟩ := List.mem_map.mp hidmem
            have hbmem := (List.mem_filter.mp hb).1
            have hbin := (List.mem_filter.mp hbmem).2
            have hbi : b._id = i := by
              rw [hi] at hbin
              simpa using hbin
            have : a._id = i := by rw [← hbid, hbi]
            simp [this]
          · rw [if_neg hcond] at hpga
            simp [hpga]
        have h2 := countP_or_le
          (fun a => a.userId == A && a.state == AState.boosted)
          (fun a => a._id == i) db.articles
        have h3 := countP_id_le_one db.articles i hnd
        rw [huid] at hcnt0
        unfold boostedCount at hcnt0
        omega
      · apply le_trans ?_ hle
        apply countP_map_le
        intro a _ hpga
        by_cases hcond : toChange.contains a._id ∧ a.userId = u._id
        · exfalso
          rw [if_pos hcond] at hpga
          simp only [Bool.and_eq_true, beq_iff_eq] at hpga
          exact huid (by rw [← hcond.2, hpga.1])
        · rw [if_neg hcond] at hpga
          exact hpga
    · apply le_trans ?_ hle
      apply countP_map_le
      intro a _ hpga
      by_cases hcond : toChange.contains a._id ∧ a.userId = u._id
      · rw [if_pos hcond] at hpga
        simp only [Bool.and_eq_true, beq_iff_eq] at hpga
        exact absurd hpga.2 hst
      · rw [if_neg hcond] at hpga
        exact hpga

theorem applyCall_map_id (db : DB) (c : LifecycleCall) :
    (applyCall db c).articles.map (fun x => x._id) =
      db.articles.map (fun x => x._id) := by
  cases c with
  | single u id st now =>
    show (runChangeState db u id st now).articles.map _ = _
    unfold runChangeState changeState
    cases hv : validateState db id u st with
    | error e => rfl
    | ok article =>
      show (updateOneById db.articles id _).map _ = _
      exact updateOneById_map db.articles id _ _ (fun a => setStateTs_oid a st _)
  | bulk u ids st =>
    show (runChangeStates db u ids st).articles.map _ = _
    unfold runChangeStates changeStates
    cases hc : checkArticlesForMultipleChanges db u ids st with
    | error e => rfl
    | ok toChange =>
      show (db.articles.map _).map _ = _
      rw [List.map_map]
      apply List.map_congr_left
      intro a _
      by_cases hcond : toChange.contains a._id ∧ a.userId = u._id
      · rw [Function.comp_apply, if_pos hcond]
      · rw [Function.comp_apply, if_neg hcond]

theorem applyCall_boost_le (db : DB) (c : LifecycleCall) (A : OId)
    (hnd : (db.articles.map (fun x => x._id)).Nodup)
    (hadm : c.user.tagAdmin = false)
    (hauth : c.user._id = A → c.user.tagAuthor = true)
    (hle : boostedCount db A ≤ 2) :
    boostedCount (applyCall db c) A ≤ 2 := by
  cases c with
  | single u id st now => exact runChangeState_boost_le db u id st now A hadm hauth hle
  | bulk u ids st => exact runChangeStates_boost_le db u ids st A hnd hadm hle

end CoderMind.Articles

namespace CoderMind.Articles

open CoderMind

/-- Article fixture: fresh article of a given owner and state. -/
def mkArticle (id uid : OId) (st : AState) : Article :=
  { _id := id, userId := uid, author := uid, title := "t",
    description := "d", content := "c", customUri := "u",
    themeId := none, categoryId := none, state := st,
    publishedAt := none, boostedAt := none, inactivatedAt := none,
    removedAt := none }

/-- User fixture. -/
def mkUser (id : OId) (adm auth : Bool) : AppUser :=
  { _id := id, tagAdmin := adm, tagAuthor := auth, name := "n",
    email := "e", deletedAt := none }

/-- Empty stores. -/
def emptyDB : DB :=
  { articles := [], comments := [], users := [], themes := [],
    categories := [], settingsRows := [] }

/-- Empty update payload. -/
def emptyPatch : ArticlePatch :=
  { title := none, customUri := none, themeId := none, categoryId := none,
    description := none, content := none }

theorem getElem?_append_cons (l r : List Article) (x : Article) :
    (l ++ x :: r)[l.length]? = some x := by
  induction l with
  | nil => simp
  | cons y ys ih => simpa using ih

/-- The article map applied by the `remove` update. -/
def removedDoc (now : Nat) (uri : String) (a : Article) : Article :=
  { a with state := .removed, removedAt := some now, customUri := uri }

theorem remove_ok (db : DB) (u : AppUser) (id : OId) (now : Nat)
    (uri : String) (db2 : DB) (h : remove db u id now uri = .ok db2) :
    ∃ article, db.articles.find? (fun x => x._id == id) = some article ∧
      db2.articles = updateOneById db.articles id (removedDoc now uri) := by
  unfold remove at h
  split at h
  · cases h
  · next article heq =>
    split at h
    · cases h
    · split at h
      · cases h
      · cases h
        exact ⟨article, heq, rfl⟩

/-- Fixture for C1: one draft article owned by author 5. -/
def dbDraft : DB := { emptyDB with articles := [mkArticle 1 5 AState.draft] }

/-- C1, counterexample.  The claim states that `removedAt` is set if and
only if the state is `removed`.  Starting from a store satisfying the
invariant (one draft article, `removedAt` unset), a single
`ChangeStatesBulk` call with target state `removed` made by the article's
own author leaves an article whose state is `removed` but whose
`removedAt` is still unset: the bulk update writes only the `state`
column, never the timestamp. -/
theorem removedAt_iff_counterexample :
    ∃ a ∈ (runChangeStates dbDraft (mkUser 5 false true) [1]
        AState.removed).articles,
      a.state = AState.removed ∧ a.removedAt = none := by
  decide

/-- C1 (amended).  What the code does guarantee: (1) a successful `Remove`
stamps the updated article with `state = removed` and
`removedAt = now`; (2) no `ChangeState`/`ChangeStatesBulk` call ever
clears a set `removedAt` (the single transition writes only the target
state's own timestamp, the bulk transition writes only `state`);
(3) `Remove` never clears it either (it restamps it).  The biconditional
of the original claim fails in both directions: `ChangeStatesBulk` to
`removed` skips the timestamp, and `ChangeState` does not exclude
articles already in state `removed`, so a revived article keeps
`removedAt` set under a different state. -/
theorem removedAt_persistence :
    (∀ (db : DB) (u : AppUser) (id : OId) (now : Nat) (uri : String)
        (db2 : DB), remove db u id now uri = .ok db2 →
      ∃ (i : Nat) (a : Article), db2.articles[i]? = some a ∧ a._id = id ∧
        a.state = AState.removed ∧ a.removedAt = some now) ∧
    (∀ (db : DB) (c : LifecycleCall) (i : Nat) (a : Article),
      db.articles[i]? = some a → a.removedAt.isSome = true →
      ∃ b, (applyCall db c).articles[i]? = some b ∧
        b.removedAt.isSome = true) ∧
    (∀ (db : DB) (u : AppUser) (id : OId) (now : Nat) (uri : String)
        (i : Nat) (a : Article), db.articles[i]? = some a →
      a.removedAt.isSome = true →
      ∃ b, (runRemove db u id now uri).articles[i]? = some b ∧
        b.removedAt.isSome = true) := by
  refine ⟨?_, ?_, ?_⟩
  · intro db u id now uri db2 h
    obtain ⟨article, hfind, hdb2⟩ := remove_ok db u id now uri db2 h
    obtain ⟨l, r, hsplit, hupd, hid⟩ := updateOneById_decomp db.articles id
      (removedDoc now uri) article hfind
    refine ⟨l.length, removedDoc now uri article, ?_, hid, rfl, rfl⟩
    rw [hdb2, hupd]
    exact getElem?_append_cons l r _
  · intro db c i a ha hsome
    cases c with
    | single u id st now =>
      show ∃ b, (runChangeState db u id st now).articles[i]? = some b ∧ _
      unfold runChangeState changeState
      cases hv : validateState db id u st with
      | error e => exact ⟨a, ha, hsome⟩
      | ok article =>
        show ∃ b, (updateOneById db.articles id _)[i]? = some b ∧ _
        rcases updateOneById_getElem db.articles id
          (fun x => setStateTs x st
            (if (stateTs article st).isNone then some now
             else stateTs article st)) i with heq | ⟨x, hx, hfx⟩
        · exact ⟨a, by rw [heq]; exact ha, hsome⟩
        · rw [ha] at hx
          cases hx
          refine ⟨_, hfx, ?_⟩
          rw [setStateTs_removedAt]
          exact hsome
    | bulk u ids st =>
      show ∃ b, (runChangeStates db u ids st).articles[i]? = some b ∧ _
      unfold runChangeStates changeStates
      cases hc : checkArticlesForMultipleChanges db u ids st with
      | error e => exact ⟨a, ha, hsome⟩
      | ok toChange =>
        show ∃ b, ((db.articles.map _))[i]? = some b ∧ _
        rw [List.getElem?_map, ha, Option.map_some']
        refine ⟨_, rfl, ?_⟩
        by_cases hcond : toChange.contains a._id ∧ a.userId = u._id
        · rw [if_pos hcond]
          exact hsome
        · rw [if_neg hcond]
          exact hsome
  · intro db u id now uri i a ha hsome
    unfold runRemove
    cases hr : remove db u id now uri with
    | error e => exact ⟨a, ha, hsome⟩
    | ok db2 =>
      obtain ⟨article, hfind, hdb2⟩ := remove_ok db u id now uri db2 hr
      show ∃ b, db2.articles[i]? = some b ∧ _
      rw [hdb2]
      rcases updateOneById_getElem db.articles id (removedDoc now uri) i
        with heq | ⟨x, hx, hfx⟩
      · exact ⟨a, by rw [heq]; exact ha, hsome⟩
      · exact ⟨_, hfx, rfl⟩

/-- Fixture: an article that was removed (timestamp set) and then sits in
state `removed`. -/
def dbRemovedArt : DB :=
  { emptyDB with articles :=
      [{ mkArticle 1 5 AState.removed with removedAt := some 3 }] }

/-- Witness for C1 (amended): applying the preservation part at a concrete
store — publishing a removed article keeps `removedAt` set. -/
theorem removedAt_persistence_witness :
    ∃ b, (applyCall dbRemovedArt (LifecycleCall.single (mkUser 5 false true)
        1 AState.published 9)).articles[0]? = some b ∧
      b.removedAt.isSome = true :=
  removedAt_persistence.2.1 dbRemovedArt
    (LifecycleCall.single (mkUser 5 false true) 1 AState.published 9) 0
    ({ mkArticle 1 5 AState.removed with removedAt := some 3 })
    (by decide) (by decide)

end CoderMind.Articles

namespace CoderMind.Articles

open CoderMind

/-- Fixture for C2: non-admin author 7 already owns two boosted articles
and one published article — a store satisfying the claimed invariant. -/
def dbBoost2 : DB :=
  { emptyDB with articles :=
      [mkArticle 1 7 AState.boosted, mkArticle 2 7 AState.boosted,
       mkArticle 3 7 AState.published] }

/-- C2, counterexample.  The claim quantifies over any finite sequence of
`ChangeState`/`ChangeStatesBulk` calls.  One `ChangeState` call made by an
admin who does not carry the author tag boosts the author's third article:
the hard-coded quota counts the boosted articles of the *caller* and is
guarded by the caller's `tagAuthor` flag, so an admin raises a non-admin
author to three boosted articles. -/
theorem boostQuota_counterexample :
    boostedCount dbBoost2 7 = 2 ∧
      boostedCount (applyCalls dbBoost2
        [LifecycleCall.single (mkUser 99 true false) 3 AState.boosted 5])
        7 = 3 := by
  decide

/-- C2 (amended).  For every author id `A`, starting from any store with
unique article ids in which `A` owns at most 2 boosted articles, after any
finite sequence of `ChangeState`/`ChangeStatesBulk` calls whose acting
users are all non-admins (and where any call acting under `A`'s own id
carries the author tag, as the author's own requests do), `A` still owns
at most 2 boosted articles.  Admin calls are excluded: they can exceed the
quota, as the counterexample shows. -/
theorem boostQuota_invariant (cs : List LifecycleCall) (db : DB) (A : OId)
    (hnd : (db.articles.map (fun x => x._id)).Nodup)
    (hcalls : ∀ c ∈ cs, (LifecycleCall.user c).tagAdmin = false ∧
      ((LifecycleCall.user c)._id = A →
        (LifecycleCall.user c).tagAuthor = true))
    (hle : boostedCount db A ≤ 2) :
    boostedCount (applyCalls db cs) A ≤ 2 := by
  induction cs generalizing db with
  | nil => exact hle
  | cons c rest ih =>
    obtain ⟨h1, h2⟩ := hcalls c (List.mem_cons_self c rest)
    have hnd2 : ((applyCall db c).articles.map (fun x => x._id)).Nodup := by
      rw [applyCall_map_id]
      exact hnd
    exact ih (applyCall db c) hnd2
      (fun x hx => hcalls x (List.mem_cons_of_mem c hx))
      (applyCall_boost_le db c A hnd h1 h2 hle)

/-- Fixture for the C2 witness: author 7 with one boosted and one
published article. -/
def dbBoost1 : DB :=
  { emptyDB with articles :=
      [mkArticle 1 7 AState.boosted, mkArticle 2 7 AState.published] }

/-- Witness for C2 (amended): the author boosting their own second
article still ends at quota. -/
theorem boostQuota_invariant_witness :
    boostedCount (applyCalls dbBoost1
      [LifecycleCall.single (mkUser 7 false true) 2 AState.boosted 5])
      7 ≤ 2 :=
  boostQuota_invariant
    [LifecycleCall.single (mkUser 7 false true) 2 AState.boosted 5]
    dbBoost1 7 (by decide) (by decide) (by decide)

/-- Fixture for C3: non-admin author 7 with two boosted articles and a
draft. -/
def dbQuota : DB :=
  { emptyDB with articles :=
      [mkArticle 1 7 AState.boosted, mkArticle 2 7 AState.boosted,
       mkArticle 3 7 AState.draft] }

/-- C3, counterexample.  The claim says a request with newState
`published` never fails with QuotaExceeded.  Author 7 owns two boosted
articles and requests `published` on a draft: the request passes the
state-validity, not-found, ownership and no-op checks and still fails
with the quota error, because the hard-coded quota check in
`validateState` does not test which state was requested. -/
theorem quota_error_counterexample :
    changeState dbQuota (mkUser 7 false true) 3 AState.published 9 =
      Except.error Err.quotaExceeded := by
  rfl

/-- C3 (amended).  For a non-admin author whose request passes the
state-validity, not-found, ownership and no-op checks, `ChangeState`
fails with QuotaExceeded exactly when the author already owns more than
one boosted article — regardless of which of the three target states was
requested. -/
theorem quota_error_characterization (db : DB) (id : OId) (u : AppUser)
    (st : AState) (a : Article)
    (_hadm : u.tagAdmin = false) (hauth : u.tagAuthor = true)
    (hvalid : st = AState.boosted ∨ st = AState.inactivated ∨
      st = AState.published)
    (hfind : db.articles.find? (fun x => x._id == id) = some a)
    (hown : u._id = a.userId)
    (hnoop : ¬(a.state = st)) :
    (validateState db id u st = Except.error Err.quotaExceeded ↔
      1 < boostedCount db u._id) := by
  unfold validateState
  have hnr : ¬(st = AState.removed) := by
    rcases hvalid with h | h | h <;> simp [h]
  have hcv : checkValidStates st false = .ok () := by
    unfold checkValidStates
    rcases hvalid with h | h | h <;> simp [h]
  rw [if_neg hnr]
  simp only [hcv, hfind]
  have hov : ¬(u.tagAdmin = false ∧ u._id ≠ a.userId) := by
    intro h3
    exact h3.2 hown
  rw [if_neg hov, if_neg hnoop]
  by_cases hq : 1 < boostedCount db u._id
  · rw [if_pos ⟨hauth, hq⟩]
    exact iff_of_true rfl hq
  · rw [if_neg (fun h3 => hq h3.2)]
    exact iff_of_false (by simp) hq

/-- Witness for C3 (amended), at the concrete counterexample store. -/
theorem quota_error_characterization_witness :
    (validateState dbQuota 3 (mkUser 7 false true) AState.published =
      Except.error Err.quotaExceeded ↔ 1 < boostedCount dbQuota 7) :=
  quota_error_characterization dbQuota 3 (mkUser 7 false true)
    AState.published (mkArticle 3 7 AState.draft) rfl rfl
    (Or.inr (Or.inr rfl)) (by decide) rfl (by decide)

/-- C4.  `ChangeStatesBulk` never mutates an article whose current state
is outside the declared origin set for the requested target state
(`published` from `inactivated`/`draft`, `boosted` from `published`,
`inactivated` from `published`/`boosted`, `removed` from `draft` only),
even when its id appears in the request list: the origin filter excludes
it from `articlesToChange`, so the article at the same store position is
untouched and no per-item error is reported.  Article ids are assumed
unique, as Mongo guarantees for `_id`. -/
theorem bulk_skips_ineligible (db : DB) (u : AppUser) (ids : List OId)
    (st : AState) (i : Nat) (a : Article)
    (hnd : (db.articles.map (fun x => x._id)).Nodup)
    (ha : db.articles[i]? = some a)
    (hst : a.state ∉ specOriginStates st) :
    (runChangeStates db u ids st).articles[i]? = some a := by
  unfold runChangeStates changeStates
  cases hc : checkArticlesForMultipleChanges db u ids st with
  | error e => exact ha
  | ok toChange =>
    obtain ⟨htc, -⟩ := checkMulti_ok db u ids st toChange hc
    show (db.articles.map _)[i]? = some a
    have hno : ¬(toChange.contains a._id = true ∧ a.userId = u._id) := by
      rintro ⟨hcontains, -⟩
      have hidmem : a._id ∈ toChange := by simpa using hcontains
      rw [htc] at hidmem
      obtain ⟨b, hb, hbid⟩ := List.mem_map.mp hidmem
      have hbfil := List.mem_filter.mp hb
      have hbmem := (List.mem_filter.mp hbfil.1).1
      have hamem : a ∈ db.articles := List.getElem?_mem ha
      have hba : b = a := mem_eq_of_nodup_ids db.articles b a hnd hbmem
        hamem hbid
      rw [hba] at hbfil
      exact hst ((eligibleForChange_iff st a).mp hbfil.2)
    rw [List.getElem?_map, ha, Option.map_some', if_neg hno]

/-- Fixture for the C4 witness: one published article, bulk-removed. -/
def dbPub : DB :=
  { emptyDB with articles := [mkArticle 1 5 AState.published] }

/-- Witness for C4: a published article listed in a bulk `removed`
request is skipped (only drafts may be bulk-removed). -/
theorem bulk_skips_ineligible_witness :
    (runChangeStates dbPub (mkUser 5 false true) [1]
      AState.removed).articles[0]? =
      some (mkArticle 1 5 AState.published) :=
  bulk_skips_ineligible dbPub (mkUser 5 false true) [1] AState.removed 0
    (mkArticle 1 5 AState.published) (by decide) (by decide) (by decide)

/-- C5 (code bug).  `Update` on a missing article id does not fail with
the NotFound error: `validateFields` loads the article and immediately
dereferences `currentArticle.userId` without a null check, so the
request dies with a raw `TypeError` that the response helper collapses
to a generic internal error — unlike every sibling middleware, which
throws the named not-found error. -/
theorem update_missing_article_typeError :
    save emptyDB 9 emptyPatch (mkUser 5 false true) =
        Except.error Err.typeError ∧
      Err.typeError ≠ Err.articleNotFound := by
  exact ⟨rfl, by decide⟩

/-- C6.  `ChangeStatesBulk` never mutates an article owned by someone
other than the acting user — admin or not — because the bulk write
predicate always restricts the update to rows whose `userId` equals the
caller's own id. -/
theorem bulk_owner_scoped (db : DB) (u : AppUser) (ids : List OId)
    (st : AState) (i : Nat) (a : Article)
    (ha : db.articles[i]? = some a)
    (hne : a.userId ≠ u._id) :
    (runChangeStates db u ids st).articles[i]? = some a := by
  unfold runChangeStates changeStates
  cases hc : checkArticlesForMultipleChanges db u ids st with
  | error e => exact ha
  | ok toChange =>
    show (db.articles.map _)[i]? = some a
    have hno : ¬(toChange.contains a._id = true ∧ a.userId = u._id) := by
      rintro ⟨-, h2⟩
      exact hne h2
    rw [List.getElem?_map, ha, Option.map_some', if_neg hno]

/-- Fixture for the C6 witness: a draft article of author 7. -/
def dbOther : DB :=
  { emptyDB with articles := [mkArticle 1 7 AState.draft] }

/-- Witness for C6: an admin bulk-publishing another author's draft
(eligible by state and listed by id) still leaves it untouched. -/
theorem bulk_owner_scoped_witness :
    (runChangeStates dbOther (mkUser 99 true false) [1]
      AState.published).articles[0]? = some (mkArticle 1 7 AState.draft) :=
  bulk_owner_scoped dbOther (mkUser 99 true false) [1] AState.published 0
    (mkArticle 1 7 AState.draft) (by decide) (by decide)

end CoderMind.Articles

namespace CoderMind.Comments

open CoderMind

/-- Comment fixture. -/
def mkComment (id aid : OId) (ans : Option OId) (rd : Option Nat)
    (d : SDate) : Comment :=
  { _id := id, articleId := aid, answerOf := ans, userName := "r",
    userEmail := "m", message := "msg", confirmedAt := none,
    readedAt := rd, createdAt := d }

/-- A sample date. -/
def d0 : SDate := ⟨2021, 0, 5⟩

/-- C7.  For every author and fixed data state, the three root-comment
listing partitions are a disjoint cover: the full (pre-pagination) match
set of `all` is exactly the union of `not-readed` (null `readedAt`) and
`only-readed` (non-null `readedAt`), the two sub-partitions are disjoint,
and the independently computed total counts add up accordingly. -/
theorem comment_partitions_cover (db : DB) (uid : OId) :
    (∀ c : Comment, c ∈ allCommentsMatch db uid ↔
      (c ∈ notReadedMatch db uid ∨ c ∈ onlyReadedMatch db uid)) ∧
    (∀ c : Comment,
      ¬(c ∈ notReadedMatch db uid ∧ c ∈ onlyReadedMatch db uid)) ∧
    getAllCommentsCount db uid =
      getNotReadedCount db uid + getOnlyReadedCount db uid := by
  refine ⟨?_, ?_, ?_⟩
  · intro c
    simp only [allCommentsMatch, notReadedMatch, onlyReadedMatch,
      notReadedItemsPred, onlyReadedItemsPred, List.mem_filter,
      Bool.and_eq_true]
    cases hr : c.readedAt with
    | none => simp
    | some t => simp
  · intro c hc
    obtain ⟨h1, h2⟩ := hc
    simp only [notReadedMatch, onlyReadedMatch, notReadedItemsPred,
      onlyReadedItemsPred, List.mem_filter, Bool.and_eq_true] at h1 h2
    have hn := h1.2.2
    have hs := h2.2.2
    cases hr : c.readedAt with
    | none => rw [hr] at hs; simp at hs
    | some t => rw [hr] at hn; simp at hn
  · have key : ∀ l : List Comment,
        l.countP (allCountPred db uid) =
          l.countP (fun c => allCountPred db uid c && c.readedAt.isNone) +
          l.countP (fun c => allCountPred db uid c && c.readedAt.isSome) := by
      intro l
      induction l with
      | nil => rfl
      | cons x rest ih =>
        simp only [List.countP_cons]
        cases hq : allCountPred db uid x <;> cases hx : x.readedAt <;>
          simp [hq, hx] <;> omega
    exact key db.comments

/-- Fixture: author 9 with one article carrying two root comments (one
read, one unread) and one answer. -/
def dbC7 : DB :=
  { Articles.emptyDB with
    articles := [Articles.mkArticle 1 9 AState.published]
    users := [Articles.mkUser 9 false true]
    comments := [mkComment 10 1 none none d0,
      mkComment 11 1 none (some 4) d0,
      mkComment 12 1 (some 10) none d0] }

/-- Witness for C7 at the concrete store (counts 2 = 1 + 1). -/
theorem comment_partitions_cover_witness :
    getAllCommentsCount dbC7 9 =
      getNotReadedCount dbC7 9 + getOnlyReadedCount dbC7 9 :=
  (comment_partitions_cover dbC7 9).2.2

/-- The rows one run of the stats job appends: one per non-deleted user,
then the platform-wide row with a null reference. -/
def statsRowsFor (y : Int) (m : Nat) (db : DB) : List StatRecord :=
  ((db.users.filter (fun u => u.deletedAt.isNone)).map fun u =>
    ({ month := m + 1, year := y,
       count := db.comments.countP
         (jobUserPred db u._id ⟨y, m, 1⟩ (jsDate y m 31)),
       reference := some u._id } : StatRecord)) ++
  [{ month := m + 1, year := y,
     count := db.comments.countP (fun c =>
       inStatsWindow ⟨y, m, 1⟩ (jsDate y m 31) c && c.answerOf.isNone),
     reference := none }]

theorem commentsJob_append (y : Int) (m : Nat) (db : DB)
    (stats : List StatRecord) :
    commentsJob y m db stats = stats ++ statsRowsFor y m db := by
  simp [commentsJob, statsRowsFor, List.append_assoc]

/-- C9.  One run of the stats aggregation job only appends rows: for
every non-soft-deleted user one row counting that user's root comments
(`answerOf` null) on their own articles with `createdAt` in the window
from the first day of the month (inclusive) up to JS `Date(y, m, 31)`
(exclusive — a bound that spills into the next month's first days when
the month is short), plus one platform-wide row with a null reference
over the same window; and a second run in the same period appends the
same rows again, duplicating them. -/
theorem statsJob_characterization (y : Int) (m : Nat) (db : DB)
    (stats : List StatRecord) :
    ∃ rows : List StatRecord,
      commentsJob y m db stats = stats ++ rows ∧
      commentsJob y m db (commentsJob y m db stats) =
        stats ++ rows ++ rows ∧
      rows.length =
        (db.users.filter (fun u => u.deletedAt.isNone)).length + 1 ∧
      (∀ u ∈ db.users, u.deletedAt = none →
        ({ month := m + 1, year := y,
           count := db.comments.countP (fun c =>
             ((resolveArticle db c).map (fun a => a.author)) ==
                 some u._id && c.answerOf.isNone &&
               inStatsWindow ⟨y, m, 1⟩ (jsDate y m 31) c),
           reference := some u._id } : StatRecord) ∈ rows) ∧
      ({ month := m + 1, year := y,
         count := db.comments.countP (fun c =>
           inStatsWindow ⟨y, m, 1⟩ (jsDate y m 31) c && c.answerOf.isNone),
         reference := none } : StatRecord) ∈ rows := by
  refine ⟨statsRowsFor y m db, commentsJob_append y m db stats, ?_, ?_,
    ?_, ?_⟩
  · rw [commentsJob_append, commentsJob_append]
  · unfold statsRowsFor
    simp
  · intro u hu hdel
    unfold statsRowsFor
    refine List.mem_append.mpr (Or.inl ?_)
    refine List.mem_map.mpr ⟨u, ?_, ?_⟩
    · exact List.mem_filter.mpr ⟨hu, by simp [hdel]⟩
    · rfl
  · unfold statsRowsFor
    refine List.mem_append.mpr (Or.inr ?_)
    simp

/-- Fixture for the C9 witness. -/
def dbC9 : DB :=
  { Articles.emptyDB with
    users := [Articles.mkUser 9 false true]
    articles := [Articles.mkArticle 1 9 AState.published]
    comments := [mkComment 10 1 none none ⟨2021, 1, 10⟩] }

/-- Witness for C9: append-only and duplication at a concrete store, for
February 2021, whose upper window bound `Date(2021, 1, 31)` normalizes to
March 3rd, 2021 — the short-month overflow. -/
theorem statsJob_characterization_witness :
    (∃ rows : List StatRecord,
      commentsJob 2021 1 dbC9 [] = [] ++ rows ∧
      commentsJob 2021 1 dbC9 (commentsJob 2021 1 dbC9 []) =
        [] ++ rows ++ rows) ∧
    jsDate 2021 1 31 = ⟨2021, 2, 3⟩ := by
  obtain ⟨rows, h1, h2, -, -, -⟩ := statsJob_characterization 2021 1 dbC9 []
  exact ⟨⟨rows, h1, h2⟩, by decide⟩

/-- C10.  A successful `Answer` call persists the created answer but
returns no payload: `createdAnswer = comment.save().then(cb)` where the
callback only dispatches the notification and returns `undefined`, so the
201 response body is empty. -/
theorem answer_returns_no_payload (db : DB) (u : AppUser) (rootId : OId)
    (ans : String) (notif : String) (newId : OId) (now : SDate)
    (view : CommentView) (art : Article)
    (hlen : ans.length ≤ 10000)
    (hroot : getOne db rootId = some view)
    (hart : view.article = some art)
    (hid : ¬(art._id = 0)) :
    answerComment db u rootId ans notif newId now = Except.ok
      { db := { db with comments := db.comments ++
          [{ _id := newId, articleId := art._id, answerOf := some rootId,
             userName := u.name, userEmail := u.email, message := ans,
             confirmedAt := none, readedAt := none, createdAt := now }] },
        code := 201, body := none } := by
  unfold answerComment
  rw [if_neg (by omega : ¬(10000 < ans.length))]
  simp only [hroot, hart]
  rw [if_neg hid]
  rfl

/-- The root-comment view `getOne` produces on the C7 fixture. -/
def viewC10 : CommentView :=
  { base := mkComment 10 1 none none d0
    article := some (Articles.mkArticle 1 9 AState.published)
    answers := [mkComment 12 1 (some 10) none d0] }

/-- Witness for C10: answering root comment 10 of the fixture persists
the answer and returns an empty 201 body. -/
theorem answer_returns_no_payload_witness :
    answerComment dbC7 (Articles.mkUser 9 false true) 10 "ok" "yes" 99 d0 =
      Except.ok
        { db := { dbC7 with comments := dbC7.comments ++
            [{ _id := 99, articleId := 1, answerOf := some 10,
               userName := "n", userEmail := "e", message := "ok",
               confirmedAt := none, readedAt := none, createdAt := d0 }] },
          code := 201, body := none } :=
  answer_returns_no_payload dbC7 (Articles.mkUser 9 false true) 10 "ok"
    "yes" 99 d0 viewC10 (Articles.mkArticle 1 9 AState.published)
    (by decide) (by decide) rfl (by decide)

end CoderMind.Comments

namespace CoderMind.Settings

open CoderMind

/-- `Save` followed by `Get` (no caching header), the round trip of the
C8 claim. -/
def roundTrip (db : DB) (u : AppUser) (p : SettingsPatch) (now : Int) :
    Except Err GetOut :=
  match save db u p now with
  | .error e => .error e
  | .ok s => get s.db u none now

/-- The merge rule the round trip actually satisfies, written from the
amended claim: a field supplied with a truthy value wins; a field that is
absent — or supplied falsy (zero limit, empty string) — keeps the
previous value; `notify` keeps a supplied definite boolean and otherwise
becomes the boolean coercion of the previous `limit` (not the previous
`notify`). -/
def mergedViewSpec (cur : SettingsRow) (p : SettingsPatch) : SettingsView :=
  { userId := cur.userId
    limit := match p.limit with
      | some v => if v = 0 then cur.limit else v
      | none => cur.limit
    notify := match p.notify with
      | some b => b
      | none => cur.limit ≠ 0
    order := match p.order with
      | some s => if s = "" then cur.order else s
      | none => cur.order
    type := match p.type with
      | some s => if s = "" then cur.type else s
      | none => cur.type
    answersType := match p.answersType with
      | some s => if s = "" then cur.answers_type else s
      | none => cur.answers_type
    answersOrder := match p.answersOrder with
      | some s => if s = "" then cur.answers_order else s
      | none => cur.answers_order }

theorem find?_map_of_pred (l : List SettingsRow) (p : SettingsRow → Bool)
    (g : SettingsRow → SettingsRow) (hp : ∀ r, p (g r) = p r) :
    (l.map g).find? p = (l.find? p).map g := by
  induction l with
  | nil => rfl
  | cons x rest ih =>
    rw [List.map_cons]
    by_cases hx : p x = true
    · rw [List.find?_cons_of_pos _ ((hp x).trans hx),
        List.find?_cons_of_pos _ hx, Option.map_some']
    · rw [List.find?_cons_of_neg _ (by rw [hp]; simpa using hx),
        List.find?_cons_of_neg _ (by simpa using hx), ih]

theorem toView_mergedRow (cur : SettingsRow) (p : SettingsPatch) :
    toView (mergedRow cur p) = mergedViewSpec cur p := by
  unfold toView mergedRow mergedViewSpec
  cases hn : p.notify with
  | none => simp [jsOrI, jsOrS]
  | some b => cases b <;> simp [jsOrI, jsOrS]

theorem verifyUser_congr (db db2 : DB) (u : AppUser)
    (h : db.users = db2.users) : verifyUser db u = verifyUser db2 u := by
  unfold verifyUser
  rw [h]

/-- C8 (amended).  For a verified user with an existing settings row and
an enum-valid patch, `Save` then `Get` returns exactly the merge
described by `mergedViewSpec`: a field supplied truthy is returned as
supplied; a field absent or supplied falsy (zero `limit`, empty string)
keeps its pre-save value; `notify`, when the patch carries no definite
boolean, is stored as the previous `limit` and returned as its boolean
coercion. -/
theorem settings_roundtrip_merge (db : DB) (u : AppUser)
    (p : SettingsPatch) (now : Int) (cur : SettingsRow)
    (henum : verifyEnumFields p = .ok ())
    (huser : verifyUser db u = .ok ())
    (hrow : db.settingsRows.find? (fun r => r.userId == u._id) = some cur) :
    roundTrip db u p now = .ok (GetOut.payload (mergedViewSpec cur p)) := by
  have hcurid : (cur.userId == u._id) = true := by
    have h2 := List.find?_some hrow
    simpa using h2
  have hpred : ∀ r : SettingsRow,
      (((if r.userId == u._id then mergedRow cur p else r)).userId ==
        u._id) = (r.userId == u._id) := by
    intro r
    by_cases hr : (r.userId == u._id) = true
    · rw [if_pos hr, hr]
      show (cur.userId == u._id) = true
      exact hcurid
    · rw [if_neg hr]
  have hfind2 : ((db.settingsRows.map fun r =>
      if r.userId == u._id then mergedRow cur p else r).find?
        (fun r => r.userId == u._id)) = some (mergedRow cur p) := by
    rw [find?_map_of_pred _ _ _ hpred, hrow, Option.map_some',
      if_pos hcurid]
  have huser2 : verifyUser { db with settingsRows :=
      (db.settingsRows.map (fun r =>
        if r.userId == u._id then mergedRow cur p else r)) } u = .ok () :=
    huser
  unfold roundTrip save get getAfterTtl
  simp only [henum, huser, hrow, hfind2, huser2, toView_mergedRow]

/-- Existing settings row of user 1 for the C8 fixtures. -/
def curRow : SettingsRow :=
  { userId := 1, limit := 10, notify := 1, order := "desc", type := "all",
    answers_order := "asc", answers_type := "all" }

/-- Store with user 1 and their settings row. -/
def dbSettings : DB :=
  { Articles.emptyDB with
    users := [Articles.mkUser 1 false true]
    settingsRows := [curRow] }

/-- A patch supplying only `limit := 0`. -/
def patchZeroLimit : SettingsPatch :=
  { notify := none, limit := some 0, order := none, type := none,
    answersOrder := none, answersType := none }

/-- C8, counterexample.  The claim says every field the patch supplied is
returned with the supplied value.  The patch supplies `limit = 0`, passes
the enum validation (Save succeeds), yet Get returns the previous limit
10: the JS merge `limit || currentSettings.limit` treats a supplied falsy
value as absent. -/
theorem settings_roundtrip_counterexample :
    roundTrip dbSettings (Articles.mkUser 1 false true) patchZeroLimit 0 =
      .ok (GetOut.payload
        { userId := 1, limit := 10, notify := true, order := "desc",
          type := "all", answersType := "all", answersOrder := "asc" }) ∧
      patchZeroLimit.limit = some 0 ∧ (10 : Int) ≠ 0 := by
  exact ⟨rfl, rfl, by decide⟩

/-- Witness for C8 (amended) at the concrete fixture. -/
theorem settings_roundtrip_merge_witness :
    roundTrip dbSettings (Articles.mkUser 1 false true) patchZeroLimit 0 =
      .ok (GetOut.payload (mergedViewSpec curRow patchZeroLimit)) :=
  settings_roundtrip_merge dbSettings (Articles.mkUser 1 false true)
    patchZeroLimit 0 curRow rfl rfl rfl

end CoderMind.Settings
